import Mathlib

/-!
# A shallow embedding of the `gbasic` interpreter

This file embeds the line-numbered BASIC interpreter from
`gbasic/scanner.py`, `gbasic/operation.py` and `gbasic/machine.py` into
Lean 4 and proves (or refutes) properties of it.

Conventions of the embedding:

* Python source text is a `List Char`; cursor indices are `Nat`.  Python
  slices `text[idx:]` become `List.drop idx text`.
* Python `int`/`float` values are rationals (`ℚ`) together with a flag
  recording whether the Python value would be a `float`.  Arithmetic on
  exactly representable values is exact; the small number of places where
  Python `float` semantics leave the rational world (fractional exponents,
  non-terminating decimal representations) are marked with an
  `unmodeled` error / fallback and are never relied on by a theorem.
* Python exceptions become an explicit error type `PyErr`; a raised
  exception propagates as `Except.error`, leaving any state the caller
  held unchanged (which matches Python's in-place objects because the
  mutating methods of `Machine` only write state after the point where
  they can raise, or raise from a position where the partial writes are
  exactly what the model records).
* Output to stdout is modelled as a trace of `OutEvent`s: the debugging
  `print(self.stack)` / `print(element[1])` / `print(self.vars)` calls of
  `Machine.run` each append a `dbg*` event, and the `print` performed by
  the `PRN`/`PRINT` opcodes appends a `prn` event carrying the exact text
  written.
* The recursive-descent scanners and the run loop use an explicit fuel
  parameter; the Python originals terminate on every input (each loop
  iteration strictly advances the cursor / the interpreter may diverge
  only via `GOTO` cycles, which the fuel makes visible as an
  `unmodeled` error).
-/

namespace GBasic

/-- `Op = Enum('Op', 'ADD SUB MUL DIV POW NEG GOTO LETNUM LETSTR PRINT PRN END')`
from `operation.py`. -/
inductive Op where
  | ADD | SUB | MUL | DIV | POW | NEG | GOTO
  | LETNUM | LETSTR | PRINT | PRN | END
  deriving DecidableEq, Repr

/-- A Python number: its exact rational value plus whether Python would
represent it as a `float` (rather than an `int`).  All numbers produced
by the interpreter on the inputs we reason about are exactly
representable. -/
structure PyNum where
  val : ℚ
  isFloat : Bool
  deriving DecidableEq, Repr

/-- A value that can appear on the machine stack or among the scanned
elements of a compiled line: a number, a string, or one of the tagged
tuples `(Element.numvar, name)` / `(Element.strvar, name)` produced by
`scan_variable`. -/
inductive Value where
  | num (n : PyNum)
  | str (s : String)
  | numvar (name : String)
  | strvar (name : String)
  deriving DecidableEq, Repr

/-- An element of a compiled line: either a plain value (pushed as-is by
`Machine.run`) or an `(Element.op, op)` marker (dispatched to
`operation.execute`). -/
inductive Elem where
  | val (v : Value)
  | op (o : Op)
  deriving DecidableEq, Repr

/-- Shorthand for an integer-valued Python `int`. -/
def Value.intv (n : ℤ) : Value := .num ⟨(n : ℚ), false⟩

/-- The Python exceptions the interpreter can raise, plus an `unmodeled`
escape hatch for behaviour outside the rational-number model. -/
inductive PyErr where
  /-- `GBasicSyntaxError(idx, message)` from `scanner.py`. -/
  | syn (idx : Nat) (msg : String)
  /-- `GBasicRuntimeError(arg)` from `machine.py`.  `Machine.goto` passes
  the formatted message as the single positional argument, so it lands in
  the exception's `idx` field; we record that argument. -/
  | runtimeErr (arg : String)
  /-- Python `KeyError` (missing dict key), carrying the repr of the key. -/
  | keyErr (key : String)
  /-- Python `TypeError` (e.g. adding a tuple to an int). -/
  | typeErr
  /-- Python `ZeroDivisionError`. -/
  | zeroDiv
  /-- Behaviour outside the model (fuel exhaustion, float-only arithmetic). -/
  | unmodeled (what : String)
  deriving DecidableEq, Repr

/-- One chunk written to stdout during `Machine.run`. -/
inductive OutEvent where
  /-- `print(self.stack)` — the debugging dump of the current stack. -/
  | dbgStack (stack : List Value)
  /-- `print(element[1])` — the debugging dump of an executed opcode. -/
  | dbgOp (o : Op)
  /-- `print(self.vars)` — the debugging dump of the variable mapping. -/
  | dbgVars (vars : List (String × Value))
  /-- Text written by the `PRN`/`PRINT` opcodes (`print(*items, ...)`). -/
  | prn (s : String)
  deriving DecidableEq, Repr

/-- Is this event ordinary program output (written by `PRN`/`PRINT`)
rather than a debugging dump? -/
def OutEvent.isPrn : OutEvent → Bool
  | .prn _ => true
  | _ => false

/-! ## Python dictionary model

`Machine.vars` is a Python `dict`.  We model it as an insertion-ordered
association list: assignment to a present key overwrites in place,
assignment to a fresh key appends. -/

/-- `d[k] = v` on a Python dict. -/
def dictSet (d : List (String × Value)) (k : String) (v : Value) :
    List (String × Value) :=
  match d with
  | [] => [(k, v)]
  | (k', v') :: rest =>
      if k' = k then (k, v) :: rest else (k', v') :: dictSet rest k v

/-- `d[k]`, as an `Option` (Python raises `KeyError` on `none`). -/
def dictGet (d : List (String × Value)) (k : String) : Option Value :=
  match d with
  | [] => none
  | (k', v') :: rest => if k' = k then some v' else dictGet rest k

/-- Equality of `Except` results is decidable (used to evaluate the
interpreter on concrete programs inside proofs). -/
instance {ε α : Type} [DecidableEq ε] [DecidableEq α] :
    DecidableEq (Except ε α) := fun a b =>
  match a, b with
  | .ok x, .ok y =>
      if h : x = y then isTrue (by rw [h])
      else isFalse (by intro hc; cases hc; exact h rfl)
  | .error x, .error y =>
      if h : x = y then isTrue (by rw [h])
      else isFalse (by intro hc; cases hc; exact h rfl)
  | .ok _, .error _ => isFalse (by intro hc; cases hc)
  | .error _, .ok _ => isFalse (by intro hc; cases hc)

/-! ## Python textual rendering

`str(...)` for the values that the interpreter can print.  Python renders
an `int` as its decimal digits and a `float` via its shortest decimal
representation; every float the interpreter builds on the inputs we
reason about has a finite decimal expansion, which we compute exactly.
The fallback branch for a non-terminating expansion is never relied on by
any theorem. -/

/-- The decimal representation of a float with a finite decimal
expansion: the smallest number of fractional digits that makes the value
exact, always keeping at least one fractional digit (`str(3.0) = "3.0"`,
`str(0.5) = "0.5"`). -/
def floatStr (q : ℚ) : String :=
  match (List.range 41).find? (fun k => (q * ((10 : ℚ) ^ k)).den = 1) with
  | some k =>
      let mag : Nat := (q * ((10 : ℚ) ^ k)).num.natAbs
      let digits := toString mag
      let padded :=
        String.mk (List.replicate (k + 1 - digits.length) '0') ++ digits
      let intPart := String.mk (padded.data.take (padded.length - k))
      let frac := String.mk (padded.data.drop (padded.length - k))
      (if q < 0 then "-" else "") ++ intPart ++ "." ++
        (if k = 0 then "0" else frac)
  | none => toString q.num ++ "/" ++ toString q.den

/-- Python `repr` of a string, as it appears inside a tuple's `str`.
(The interpreter only ever reaches this for variable names, which need no
escaping.) -/
def pyReprStr (s : String) : String := "\x27" ++ s ++ "\x27"

/-- Python `str(...)` of a stack value: decimal digits for an `int`,
decimal expansion for a `float`, the text itself for a `str`, and the
tuple/enum `repr` for the tagged variable-reference tuples
(`Element.strvar` and `Element.numvar` are the 4th and 5th members of the
`Element` enum in `scanner.py`). -/
def pyStr : Value → String
  | .num ⟨q, false⟩ => toString q.num
  | .num ⟨q, true⟩ => floatStr q
  | .str s => s
  | .numvar n => "(<Element.numvar: 5>, " ++ pyReprStr n ++ ")"
  | .strvar n => "(<Element.strvar: 4>, " ++ pyReprStr n ++ ")"

/-! ## Lexical primitives (`scanner.py`) -/

/-- Python `str.isspace` for the characters a source line can contain. -/
def pyIsSpace (c : Char) : Bool :=
  c == ' ' || c == '\t' || c == '\n' || c == '\x0d' || c == '\x0b' || c == '\x0c'

/-- Python `str.strip()`. -/
def pyStrip (l : List Char) : List Char :=
  ((l.dropWhile pyIsSpace).reverse.dropWhile pyIsSpace).reverse

/-- The absolute index of the first non-whitespace character at or after
`idx` (used by `scan_ws` when one exists). -/
def skipWsIdx : List Char → Nat → Nat
  | [], idx => idx
  | c :: rest, idx => if pyIsSpace c then skipWsIdx rest (idx + 1) else idx

/-- `scan_ws(text, cur_idx)`: skips whitespace, returning the skipped
segment and the new index.  If everything from `cur_idx` on is
whitespace (`text[cur_idx:].lstrip() == ''`), returns the rest of the
text and `len(text)`. -/
def scan_ws (text : List Char) (cur_idx : Nat) : List Char × Nat :=
  let rest := text.drop cur_idx
  if rest.all pyIsSpace then (rest, text.length)
  else
    let idx := skipWsIdx rest cur_idx
    (rest.take (idx - cur_idx), idx)

/-- `check_lineno(text, idx)`: the digits of `re.match(r"\d+", text[idx:])`,
if any. -/
def check_lineno (text : List Char) (idx : Nat) : Option (List Char) :=
  let ds := (text.drop idx).takeWhile Char.isDigit
  if ds.isEmpty then none else some ds

/-- The numeric value of a digit string (Python `int(...)` on the digits
matched by `check_lineno`). -/
def digitsToNat (ds : List Char) : Nat :=
  ds.foldl (fun a c => a * 10 + (c.toNat - '0'.toNat)) 0

/-- `scan_lineno(text, idx)` (with its `@allow_ws` wrapper). -/
def scan_lineno (text : List Char) (idx : Nat) : Except PyErr (Nat × Nat) :=
  let (_, idx) := scan_ws text idx
  match check_lineno text idx with
  | some ds => .ok (digitsToNat ds, idx + ds.length)
  | none => .error (.syn idx "Line number expected")

/-- The `keywords` set of `scanner.py`.  Python iterates the set in an
unspecified order, but no keyword is a prefix of another, so at most one
keyword can match at a given position and the iteration order is
unobservable; we fix the source order. -/
def keywords : List String :=
  ["LET", "READ", "DATA", "RESTORE", "PRINT", "GOTO", "IF", "ON", "FOR",
   "DIM", "END", "RANDOM", "GOSUB", "RETURN", "DEF", "INPUT", "REM", "STOP"]

/-- `scan_keyword(text, idx)` (with its `@allow_ws` wrapper). -/
def scan_keyword (text : List Char) (idx : Nat) : Except PyErr (String × Nat) :=
  let (_, idx) := scan_ws text idx
  match keywords.find? (fun kw => kw.data.isPrefixOf (text.drop idx)) with
  | some kw => .ok (kw, idx + kw.length)
  | none => .error (.syn idx "Keyword expected")

/-- Is `c` in the regex class `[A-Z]`? -/
def isUpperAZ (c : Char) : Bool := 'A' ≤ c && c ≤ 'Z'

/-- Is `c` in the regex class `[A-Z0-9]`? -/
def isUpperOrDigit (c : Char) : Bool := isUpperAZ c || c.isDigit

/-- `check_variable(text, idx)`: the greedy match of
`[A-Z][A-Z0-9]?\$?` at `idx`, if any. -/
def check_variable (text : List Char) (idx : Nat) : Option (List Char) :=
  match text.drop idx with
  | [] => none
  | c :: rest =>
      if isUpperAZ c then
        match rest with
        | d :: rest2 =>
            if isUpperOrDigit d then
              match rest2 with
              | '$' :: _ => some [c, d, '$']
              | _ => some [c, d]
            else if d = '$' then some [c, '$']
            else some [c]
        | [] => some [c]
      else none

/-- `scan_variable(text, idx)` (with its `@allow_ws` wrapper): tags the
matched name as a string variable iff it ends in `$`. -/
def scan_variable (text : List Char) (idx : Nat) : Except PyErr (Value × Nat) :=
  let (_, idx) := scan_ws text idx
  match check_variable text idx with
  | some var =>
      let name := String.mk var
      if var.getLast? = some '$' then .ok (.strvar name, idx + var.length)
      else .ok (.numvar name, idx + var.length)
  | none => .error (.syn idx "Variable name expected")

/-- The pieces matched by `check_number`'s regex
`(?i)([+\-]?(?:[1-9]\d*|0))(?:\.([0-9]*))?(?:E([+-]?\d+))?`:
the optional sign character, the digits of the whole part, the (possibly
empty) digits after a matched decimal point, and the text of a matched
exponent group (optional sign plus at least one digit). -/
structure NumParts where
  sign : Option Char
  whole : List Char
  dec : Option (List Char)
  sci : Option (List Char)
  deriving DecidableEq, Repr

/-- `check_number(text, idx)`: match the number regex at `idx`.  The
whole part is `0` alone or a nonzero digit followed by digits; the
decimal part may be empty; the exponent group only matches when at least
one digit follows `E`/`e` (otherwise the regex backtracks and the group
is absent). -/
def check_number (text : List Char) (idx : Nat) : Option NumParts :=
  let rest := text.drop idx
  let (sign, r1) : Option Char × List Char :=
    match rest with
    | '+' :: r => (some '+', r)
    | '-' :: r => (some '-', r)
    | r => (none, r)
  match r1 with
  | c :: r2 =>
      if c = '0' ∨ ¬ c.isDigit then
        if c = '0' then
          some (checkNumberRest sign ['0'] r2)
        else none
      else
        some (checkNumberRest sign (c :: r2.takeWhile Char.isDigit)
          (r2.dropWhile Char.isDigit))
  | [] => none
where
  /-- The optional decimal-point and exponent groups. -/
  checkNumberRest (sign : Option Char) (whole : List Char) (r : List Char) :
      NumParts :=
    let (dec, r') : Option (List Char) × List Char :=
      match r with
      | '.' :: r2 => (some (r2.takeWhile Char.isDigit), r2.dropWhile Char.isDigit)
      | _ => (none, r)
    let sci : Option (List Char) :=
      match r' with
      | 'E' :: r3 => sciGroup r3
      | 'e' :: r3 => sciGroup r3
      | _ => none
    ⟨sign, whole, dec, sci⟩
  /-- The exponent group after `E`/`e`: optional sign then one or more
  digits, or no match. -/
  sciGroup (r : List Char) : Option (List Char) :=
    let (sgn, r') : List Char × List Char :=
      match r with
      | '+' :: r2 => (['+'], r2)
      | '-' :: r2 => (['-'], r2)
      | r2 => ([], r2)
    let ds := r'.takeWhile Char.isDigit
    if ds.isEmpty then none else some (sgn ++ ds)

/-- The `num` string built by `check_number` from the matched groups
(`"{}.{}e{}".format(whole, decimal or 0, scientific)` when an exponent
was matched, `"{}.{}"` for a nonempty decimal part, the whole part
alone otherwise).  `scan_number` advances the cursor by this string's
length and tests it for `.`/`e` to choose `float` versus `int`. -/
def numstrOf (p : NumParts) : List Char :=
  let signedWhole := (match p.sign with | some c => [c] | none => []) ++ p.whole
  match p.sci with
  | some sciTxt =>
      let d := match p.dec with
        | some ds => if ds.isEmpty then ['0'] else ds
        | none => ['0']
      signedWhole ++ '.' :: d ++ 'e' :: sciTxt
  | none =>
      match p.dec with
      | some ds => if ds.isEmpty then signedWhole else signedWhole ++ '.' :: ds
      | none => signedWhole

/-- The integer value of an exponent group (optional sign then digits). -/
def sciInt : List Char → ℤ
  | '+' :: ds => (digitsToNat ds : ℤ)
  | '-' :: ds => -(digitsToNat ds : ℤ)
  | ds => (digitsToNat ds : ℤ)

/-- The numeric value of the matched number: what Python's
`float(num)` / `int(num)` yields on the constructed `num` string. -/
def numVal (p : NumParts) : ℚ :=
  let mag : ℚ := (digitsToNat p.whole : ℚ) +
    (match p.dec with
     | some ds => (digitsToNat ds : ℚ) / ((10 : ℚ) ^ ds.length)
     | none => 0)
  let signed : ℚ := if p.sign = some '-' then -mag else mag
  match p.sci with
  | some sciTxt => signed * (10 : ℚ) ^ (sciInt sciTxt)
  | none => signed

/-- `scan_number(text, idx)` (with its `@allow_ws` wrapper): a `float`
when the constructed string contains `.` or `e`, an `int` otherwise; the
cursor advances by the constructed string's length. -/
def scan_number (text : List Char) (idx : Nat) : Except PyErr (PyNum × Nat) :=
  let (_, idx) := scan_ws text idx
  match check_number text idx with
  | some p =>
      let ns := numstrOf p
      .ok (⟨numVal p, ns.contains '.' || ns.contains 'e'⟩, idx + ns.length)
  | none => .error (.syn idx "Number expected")

/-- The body of `check_string`'s regex after the opening quote:
characters other than `"` and `\` pass through, `\` escapes the next
character, and the match succeeds at the closing quote.  Returns the
matched text from here on (including the closing quote). -/
def check_string_aux : List Char → Option (List Char)
  | [] => none
  | '\"' :: _ => some ['\"']
  | '\\' :: c :: rest =>
      if c = '\n' then none
      else (check_string_aux rest).map (fun t => '\\' :: c :: t)
  | '\\' :: [] => none
  | c :: rest => (check_string_aux rest).map (fun t => c :: t)

/-- `check_string(text, idx)`: the full quoted-string match (including
both quotes), if any. -/
def check_string (text : List Char) (idx : Nat) : Option (List Char) :=
  match text.drop idx with
  | '\"' :: rest => (check_string_aux rest).map (fun t => '\"' :: t)
  | _ => none

/-- Python `s.replace(ab, r)` for a two-character pattern `ab` and a
one-character replacement `r`: left-to-right, non-overlapping. -/
def replacePair (a b r : Char) : List Char → List Char
  | [] => []
  | [c] => [c]
  | c :: d :: rest =>
      if c = a ∧ d = b then r :: replacePair a b r rest
      else c :: replacePair a b r (d :: rest)

/-- `unquote_string(quoted_str)`: strip the quotes, then
`.replace('\\"', '"').replace('\\\\', '\\')`. -/
def unquote_string (q : List Char) : List Char :=
  replacePair '\\' '\\' '\\' (replacePair '\\' '\"' '\"' ((q.drop 1).dropLast))

/-- `scan_string(text, cur_idx)`. -/
def scan_string (text : List Char) (cur_idx : Nat) :
    Except PyErr (String × Nat) :=
  let (_, idx) := scan_ws text cur_idx
  match check_string text idx with
  | some quoted =>
      .ok (String.mk (unquote_string quoted), idx + quoted.length)
  | none => .error (.syn idx "String expected")

/-- `check_chars(chars, ws_ok)(text, idx)`: optionally skip whitespace,
then require `chars` literally; on success return the skipped whitespace
followed by `chars`. -/
def check_chars (chars : List Char) (ws_ok : Bool) (text : List Char)
    (idx : Nat) : Option (List Char) :=
  let (ws, idx') := if ws_ok then scan_ws text idx else ([], idx)
  if chars.isPrefixOf (text.drop idx') then some (ws ++ chars) else none

/-- `scan_chars(chars, ws_ok)(text, idx)`: as `check_chars`, but advance
the cursor past the match or raise
`GBasicSyntaxError(idx, "Characters '<chars>' expected")`. -/
def scan_chars (chars : List Char) (ws_ok : Bool) (text : List Char)
    (idx : Nat) : Except PyErr (List Char × Nat) :=
  let out_ws := (check_chars chars ws_ok text idx).getD []
  let out := if ws_ok then out_ws.dropWhile pyIsSpace else out_ws
  if out = chars then .ok (chars, idx + out_ws.length)
  else
    .error (.syn idx
      ("Characters \x27" ++ String.mk chars ++ "\x27 expected"))

/-- The `MathOps` dict of `scanner.py`. -/
def MathOps : List Char → Option Op
  | ['+'] => some .ADD
  | ['-'] => some .SUB
  | ['*'] => some .MUL
  | ['/'] => some .DIV
  | ['^'] => some .POW
  | _ => none

/-! ## Expression compiler (`scanner.py`, § "recursive descent grammar")

The four mutually recursive scan functions, each prefixed by its
`@allow_ws` whitespace skip, plus one helper per `while` loop.  The
explicit `fuel` argument makes the recursion structural; the Python
originals terminate because every iteration advances the cursor, and
every theorem below either supplies ample fuel for its concrete input or
quantifies over the fuel.

Two faithfulness notes on the loops:

* In `scan_term`, the loop body is
  `try: op, idx = scan_mul(text, idx) except TypeError: op, idx = scan_div(...)`.
  `scan_mul` (= `scan_chars("*")`) raises `GBasicSyntaxError`, never
  `TypeError`, when the next operator is `/`, so the `except` clause is
  dead code and the error propagates out of `scan_term`.  The model
  therefore calls only `scan_chars "*"` in the loop body.
* `scan_expression`'s loop has the same shape with `+`/`-`: a binary `-`
  makes `scan_add` raise `GBasicSyntaxError`, which propagates. -/

mutual

/-- `scan_primary(text, cur_idx)`. -/
def scan_primary : Nat → List Char → Nat → Except PyErr (List Elem × Nat)
  | 0, _, _ => .error (.unmodeled "fuel")
  | fuel + 1, text, idx_in =>
      let (_, cur_idx) := scan_ws text idx_in
      let (_, idx) := scan_ws text cur_idx
      if (check_number text idx).isSome then do
        let (num, idx) ← scan_number text idx
        .ok ([Elem.val (.num num)], idx)
      else if (check_variable text idx).isSome then do
        let (var, idx) ← scan_variable text idx
        .ok ([Elem.val var], idx)
      else if (check_chars ['('] true text idx).isSome then do
        let (_, idx) ← scan_chars ['('] true text idx
        let (primary, idx) ← scan_expression fuel text idx
        let (_, idx) ← scan_chars [')'] true text idx
        .ok (primary, idx)
      else
        .error (.syn cur_idx "Number, variable, or expression expected")
termination_by structural fuel => fuel

/-- The `while check_exp(text, idx)` loop of `scan_factor`. -/
def scan_factor_loop : Nat → List Char → Nat → List Elem →
    Except PyErr (List Elem × Nat)
  | 0, _, _, _ => .error (.unmodeled "fuel")
  | fuel + 1, text, idx, out =>
      if (check_chars ['^'] true text idx).isSome then do
        let (_, idx) ← scan_chars ['^'] true text idx
        let (primary, idx) ← scan_primary fuel text idx
        scan_factor_loop fuel text idx (out ++ primary ++ [Elem.op Op.POW])
      else .ok (out, idx)
termination_by structural fuel => fuel

/-- `scan_factor(text, cur_idx)`. -/
def scan_factor : Nat → List Char → Nat → Except PyErr (List Elem × Nat)
  | 0, _, _ => .error (.unmodeled "fuel")
  | fuel + 1, text, idx_in =>
      let (_, cur_idx) := scan_ws text idx_in
      do
        let (primary, idx) ← scan_primary fuel text cur_idx
        scan_factor_loop fuel text idx primary
termination_by structural fuel => fuel

/-- The `while check_mul(...) or check_div(...)` loop of `scan_term`
(see the faithfulness note above: a `/` here raises). -/
def scan_term_loop : Nat → List Char → Nat → List Elem →
    Except PyErr (List Elem × Nat)
  | 0, _, _, _ => .error (.unmodeled "fuel")
  | fuel + 1, text, idx, out =>
      if (check_chars ['*'] true text idx).isSome ||
          (check_chars ['/'] true text idx).isSome then do
        let (op, idx) ← scan_chars ['*'] true text idx
        let (factor, idx) ← scan_factor fuel text idx
        match MathOps op with
        | some o => scan_term_loop fuel text idx (out ++ factor ++ [Elem.op o])
        | none => .error (.keyErr (String.mk op))
      else .ok (out, idx)
termination_by structural fuel => fuel

/-- `scan_term(text, cur_idx)`. -/
def scan_term : Nat → List Char → Nat → Except PyErr (List Elem × Nat)
  | 0, _, _ => .error (.unmodeled "fuel")
  | fuel + 1, text, idx_in =>
      let (_, cur_idx) := scan_ws text idx_in
      do
        let (factor, idx) ← scan_factor fuel text cur_idx
        scan_term_loop fuel text idx factor
termination_by structural fuel => fuel

/-- The `while check_add(...) or check_sub(...)` loop of
`scan_expression` (a binary `-` here raises, as in `scan_term_loop`). -/
def scan_expression_loop : Nat → List Char → Nat → List Elem →
    Except PyErr (List Elem × Nat)
  | 0, _, _, _ => .error (.unmodeled "fuel")
  | fuel + 1, text, idx, out =>
      if (check_chars ['+'] true text idx).isSome ||
          (check_chars ['-'] true text idx).isSome then do
        let (op, idx) ← scan_chars ['+'] true text idx
        let (term, idx) ← scan_term fuel text idx
        match MathOps op with
        | some o =>
            scan_expression_loop fuel text idx (out ++ term ++ [Elem.op o])
        | none => .error (.keyErr (String.mk op))
      else .ok (out, idx)
termination_by structural fuel => fuel

/-- `scan_expression(text, cur_idx)`: optional unary `+`/`-`, a term
(followed by a `NEG` marker if the unary operator was `-`), then the
binary `+`/`-` loop. -/
def scan_expression : Nat → List Char → Nat → Except PyErr (List Elem × Nat)
  | 0, _, _ => .error (.unmodeled "fuel")
  | fuel + 1, text, idx_in =>
      let (_, cur_idx) := scan_ws text idx_in
      do
        let (op, idx) ← (
          if (check_chars ['+'] true text cur_idx).isSome then do
            let (op, idx) ← scan_chars ['+'] true text cur_idx
            pure (some op, idx)
          else if (check_chars ['-'] true text cur_idx).isSome then do
            let (op, idx) ← scan_chars ['-'] true text cur_idx
            pure (some op, idx)
          else pure ((none : Option (List Char)), cur_idx) :
            Except PyErr (Option (List Char) × Nat))
        let (term, idx) ← scan_term fuel text idx
        let out := if op = some ['-'] then term ++ [Elem.op Op.NEG] else term
        scan_expression_loop fuel text idx out
termination_by structural fuel => fuel

end

/-! ## Statement compiler (`scanner.py`) -/

/-- `scan_eof(text, idx)` (with its `@allow_ws` wrapper). -/
def scan_eof (text : List Char) (idx_in : Nat) : Except PyErr (Bool × Nat) :=
  let (_, idx) := scan_ws text idx_in
  if text.drop idx = [] then .ok (true, idx)
  else .error (.syn idx "End of line expected")

/-- `scan_let(text, idx)`: variable, `=`, then a numeric expression
(ending in `LETNUM`) for a numeric variable or a single string literal
(ending in `LETSTR`) for a string variable.  As in the source, the index
returned is the one from before the (discarded) `scan_eof` result. -/
def scan_let (fuel : Nat) (text : List Char) (idx_in : Nat) :
    Except PyErr (List Elem × Nat) :=
  let (_, idx) := scan_ws text idx_in
  do
    let (var, idx) ← scan_variable text idx
    let (_, idx) ← scan_chars ['='] true text idx
    match var with
    | .numvar _ => do
        let (expression, idx) ← scan_expression fuel text idx
        let _ ← scan_eof text idx
        .ok (Elem.val var :: expression ++ [Elem.op Op.LETNUM], idx)
    | _ => do
        let (outstr, idx) ← scan_string text idx
        let _ ← scan_eof text idx
        .ok ([Elem.val var, Elem.val (.str outstr), Elem.op Op.LETSTR], idx)

/-- `scan_next` inside `scan_print`: try a string literal first, and on
its `GBasicSyntaxError` (the only exception `scan_string` raises) fall
back to an expression. -/
def scan_print_next (fuel : Nat) (text : List Char) (idx : Nat) :
    Except PyErr (List Elem × Nat) :=
  match scan_string text idx with
  | .ok (s, idx') => .ok ([Elem.val (.str s)], idx')
  | .error _ => scan_expression fuel text idx

/-- The `while check_comma(text, idx)` loop of `scan_print`, carrying
the emitted elements and the item count. -/
def scan_print_loop (fuel : Nat) (text : List Char) :
    Nat → Nat → List Elem → Nat → Except PyErr (List Elem × Nat × Nat)
  | 0, _, _, _ => .error (.unmodeled "fuel")
  | loopFuel + 1, idx, out, items =>
      if (check_chars [','] true text idx).isSome then do
        let (_, idx) ← scan_chars [','] true text idx
        let (item, idx) ← scan_print_next fuel text idx
        scan_print_loop fuel text loopFuel idx (out ++ item) (items + 1)
      else .ok (out, idx, items)

/-- `scan_print(text, idx)`: comma-separated items, each a string
literal or an expression, **emitted in scan order** (the elements of the
first item first), then a `;` choosing `PRN` over `PRINT`, then the item
count and the final op marker. -/
def scan_print (fuel : Nat) (text : List Char) (idx_in : Nat) :
    Except PyErr (List Elem × Nat) :=
  let (_, idx) := scan_ws text idx_in
  do
    let (item, idx) ← scan_print_next fuel text idx
    let (out, idx, items) ← scan_print_loop fuel text fuel idx item 1
    if (check_chars [';'] true text idx).isSome then do
      let (_, idx) ← scan_chars [';'] true text idx
      let _ ← scan_eof text idx
      .ok (out ++ [Elem.val (Value.intv items), Elem.op Op.PRN], idx)
    else do
      let _ ← scan_eof text idx
      .ok (out ++ [Elem.val (Value.intv items), Elem.op Op.PRINT], idx)

/-- `scan_goto(text, idx)`: a line number then a `GOTO` marker. -/
def scan_goto (text : List Char) (idx_in : Nat) :
    Except PyErr (List Elem × Nat) :=
  let (_, idx) := scan_ws text idx_in
  do
    let (lineno, idx) ← scan_lineno text idx
    let _ ← scan_eof text idx
    .ok ([Elem.val (Value.intv lineno), Elem.op Op.GOTO], idx)

/-- `scan_end(text, idx)`: end of line, then a single `END` marker (the
returned index is the pre-`scan_eof` one, as in the source). -/
def scan_end (text : List Char) (idx_in : Nat) :
    Except PyErr (List Elem × Nat) :=
  let (_, idx) := scan_ws text idx_in
  do
    let _ ← scan_eof text idx
    .ok ([Elem.op Op.END], idx)

/-- `scan_line(text, idx)`: dispatch on the leading keyword; keywords
outside `keyword_map` raise `"<keyword> not yet implemented"`. -/
def scan_line (fuel : Nat) (text : List Char) (idx_in : Nat) :
    Except PyErr (List Elem × Nat) :=
  let (_, idx0) := scan_ws text idx_in
  do
    let (keyword, idx) ← scan_keyword text idx0
    if keyword = "LET" then scan_let fuel text idx
    else if keyword = "PRINT" then scan_print fuel text idx
    else if keyword = "GOTO" then scan_goto text idx
    else if keyword = "END" then scan_end text idx
    else .error (.syn idx (keyword ++ " not yet implemented"))

/-! ## Program store (`machine.py`) -/

/-- `Line = namedtuple("Line", ("lineno", "text", "compiled"))`. -/
structure Line where
  lineno : Nat
  text : String
  compiled : List Elem
  deriving DecidableEq, Repr

/-- The `Machine` state: evaluation stack (top at the head), program,
line-number set (modelled as a duplicate-free list), variable dict,
program counter and halt flag. -/
structure Machine where
  stack : List Value := []
  program : List Line := []
  linenos : List Nat := []
  vars : List (String × Value) := []
  pidx : Nat := 0
  halt : Bool := false
  deriving DecidableEq, Repr

/-- `Machine._process_line(text)`: scan the line number, compile the
rest, and package the `Line` (whose `text` field is the stripped
remainder of the input). -/
def process_line (fuel : Nat) (text : String) : Except PyErr Line :=
  do
    let (lineno, idx) ← scan_lineno text.data 0
    let (compiled, _) ← scan_line fuel text.data idx
    .ok ⟨lineno, String.mk (pyStrip (text.data.drop idx)), compiled⟩

/-- `set.add`: insert if absent. -/
def setAdd (s : List Nat) (n : Nat) : List Nat :=
  if s.contains n then s else s ++ [n]

/-- `self.program.sort(key=lambda line: line.lineno)`.  Python's sort is
stable; at every call site the line numbers are pairwise distinct (the
caller deletes a duplicate first), so any correct sort agrees with it
and we use insertion sort. -/
def pySort (l : List Line) : List Line :=
  l.insertionSort (fun a b => a.lineno ≤ b.lineno)

/-- `Machine.delete_line(lineno)`: `set.remove` raises `KeyError` when
the number is absent (before the program list is touched); otherwise
remove the number and drop its lines. -/
def delete_line (m : Machine) (lineno : Nat) : Except PyErr Machine :=
  if m.linenos.contains lineno then
    .ok { m with
      linenos := m.linenos.erase lineno,
      program := m.program.filter (fun l => l.lineno ≠ lineno) }
  else .error (.keyErr (toString lineno))

/-- `Machine.add_line(text)`: compile (any `GBasicSyntaxError` raised
there propagates before any state is touched), delete a line with the
same number if present, then insert and re-sort. -/
def add_line (fuel : Nat) (m : Machine) (text : String) :
    Except PyErr Machine :=
  do
    let line ← process_line fuel text
    let m₁ ← if m.linenos.contains line.lineno
      then delete_line m line.lineno
      else pure m
    .ok { m₁ with
      linenos := setAdd m₁.linenos line.lineno,
      program := pySort (m₁.program ++ [line]) }

/-- `Machine.resolve(element)`: literals pass through; a
`(Element.numvar, name)` tuple is looked up in `self.vars` (Python
raises `KeyError` when the name is unbound); any other tuple — in
particular `(Element.strvar, name)` — is returned unchanged. -/
def resolve (m : Machine) (element : Value) : Except PyErr Value :=
  match element with
  | .numvar name =>
      match dictGet m.vars name with
      | some v => .ok v
      | none => .error (.keyErr name)
  | e => .ok e

/-- `Machine.pop_and_resolve()` (`deque.pop` raises on an empty stack,
which the model reports as `unmodeled`: the Python `IndexError` is
outside the two scripted error types). -/
def pop_and_resolve (m : Machine) : Except PyErr (Value × Machine) :=
  match m.stack with
  | [] => .error (.unmodeled "pop from an empty deque")
  | v :: rest => do
      let rv ← resolve m v
      .ok (rv, { m with stack := rest })

/-- Does the popped `lineno` value equal the stored line number `n`
under Python `==`? -/
def value_eq_lineno (v : Value) (n : Nat) : Bool :=
  match v with
  | .num q => q.val == (n : ℚ)
  | _ => false

/-- `Machine.goto(lineno)`: raise
`GBasicRuntimeError("Cannot GOTO line number <n>: line number does not
exist")` (the message is passed as the single positional argument) when
the number is not in `self.linenos`; otherwise set `pidx` to the index
of the first program line with that number (leaving `pidx` unchanged if
the loop finds none). -/
def machine_goto (m : Machine) (lineno : Value) : Except PyErr Machine :=
  if m.linenos.any (fun n => value_eq_lineno lineno n) then
    match m.program.findIdx? (fun l => value_eq_lineno lineno l.lineno) with
    | some i => .ok { m with pidx := i }
    | none => .ok m
  else
    .error (.runtimeErr
      ("Cannot GOTO line number " ++ pyStr lineno ++
        ": line number does not exist"))

/-! ## Opcode implementations (`operation.py`) -/

/-- Python `b + a` on stack values: numbers add (a `float` result iff
either operand is one), strings concatenate; mixed operands raise
`TypeError`; tuple concatenation is outside the model. -/
def py_add (b a : Value) : Except PyErr Value :=
  match b, a with
  | .num nb, .num na => .ok (.num ⟨nb.val + na.val, nb.isFloat || na.isFloat⟩)
  | .str sb, .str sa => .ok (.str (sb ++ sa))
  | .numvar _, _ | .strvar _, _ | _, .numvar _ | _, .strvar _ =>
      .error (.unmodeled "+ on a variable-reference tuple")
  | _, _ => .error .typeErr

/-- Python `b - a`: numbers only. -/
def py_sub (b a : Value) : Except PyErr Value :=
  match b, a with
  | .num nb, .num na => .ok (.num ⟨nb.val - na.val, nb.isFloat || na.isFloat⟩)
  | _, _ => .error .typeErr

/-- Python `b * a` on numbers (sequence repetition is outside the
model). -/
def py_mul (b a : Value) : Except PyErr Value :=
  match b, a with
  | .num nb, .num na => .ok (.num ⟨nb.val * na.val, nb.isFloat || na.isFloat⟩)
  | _, _ => .error (.unmodeled "* on non-numeric operands")

/-- Python `b / a`: true division, always yielding a `float`;
`ZeroDivisionError` on a zero divisor. -/
def py_div (b a : Value) : Except PyErr Value :=
  match b, a with
  | .num nb, .num na =>
      if na.val = 0 then .error .zeroDiv
      else .ok (.num ⟨nb.val / na.val, true⟩)
  | _, _ => .error (.unmodeled "/ on non-numeric operands")

/-- Python `b ** a`: an integer exponent keeps the result rational (a
nonnegative one keeps an `int` an `int`; a negative one yields a
`float`, with `ZeroDivisionError` for base 0); a fractional exponent
leaves the rational model. -/
def py_pow (b a : Value) : Except PyErr Value :=
  match b, a with
  | .num nb, .num na =>
      if na.val.den = 1 then
        if 0 ≤ na.val.num then
          .ok (.num ⟨nb.val ^ na.val.num.toNat, nb.isFloat || na.isFloat⟩)
        else if nb.val = 0 then .error .zeroDiv
        else .ok (.num ⟨nb.val ^ na.val.num, true⟩)
      else .error (.unmodeled "fractional exponent")
  | _, _ => .error (.unmodeled "** on non-numeric operands")

/-- Python `-a`: numbers only. -/
def py_neg (a : Value) : Except PyErr Value :=
  match a with
  | .num na => .ok (.num ⟨-na.val, na.isFloat⟩)
  | _ => .error .typeErr

/-- The common shape of `add`/`sub`/`mul`/`div`/`pow` in `operation.py`:
pop `a`, pop `b` (resolving each), push `b <op> a`. -/
def binop_fn (f : Value → Value → Except PyErr Value) (m : Machine) :
    Except PyErr (Machine × List OutEvent) := do
  let (a, m) ← pop_and_resolve m
  let (b, m) ← pop_and_resolve m
  let r ← f b a
  .ok ({ m with stack := r :: m.stack }, [])

/-- `neg(vm)`. -/
def neg_fn (m : Machine) : Except PyErr (Machine × List OutEvent) := do
  let (a, m) ← pop_and_resolve m
  let r ← py_neg a
  .ok ({ m with stack := r :: m.stack }, [])

/-- `letnum(vm)`: pop and resolve the value, pop the variable tuple
(unresolved — a raw `stack.pop()`), and bind `vars[varname[1]]`. -/
def letnum_fn (m : Machine) : Except PyErr (Machine × List OutEvent) := do
  let (num, m) ← pop_and_resolve m
  match m.stack with
  | [] => .error (.unmodeled "pop from an empty deque")
  | varname :: rest =>
      match varname with
      | .numvar name | .strvar name =>
          .ok ({ m with stack := rest, vars := dictSet m.vars name num }, [])
      | _ => .error (.unmodeled "subscript [1] of a non-tuple")

/-- `endop(vm)`: set the halt flag. -/
def endop_fn (m : Machine) : Except PyErr (Machine × List OutEvent) :=
  .ok ({ m with halt := true }, [])

/-- `goto(vm)`: a raw `stack.pop()` (no resolution), then
`vm.goto(lineno)`. -/
def goto_fn (m : Machine) : Except PyErr (Machine × List OutEvent) :=
  match m.stack with
  | [] => .error (.unmodeled "pop from an empty deque")
  | lineno :: rest => do
      let m' ← machine_goto { m with stack := rest } lineno
      .ok (m', [])

/-- `[vm.pop_and_resolve() for _ in range(k)]`: pop and resolve `k`
values, top first. -/
def pop_resolve_n : Nat → Machine → Except PyErr (List Value × Machine)
  | 0, m => .ok ([], m)
  | k + 1, m => do
      let (v, m) ← pop_and_resolve m
      let (vs, m) ← pop_resolve_n k m
      .ok (v :: vs, m)

/-- The body of `prn(vm)`: pop the item count (a raw `stack.pop()`; it
must be an `int` for `range` — Python's `range(n)` is empty for a
negative `n`), pop and resolve that many items, and produce the text
`print(*items, sep=' ', end='')` writes. -/
def prn_core (m : Machine) : Except PyErr (Machine × String) :=
  match m.stack with
  | [] => .error (.unmodeled "pop from an empty deque")
  | cnt :: rest =>
      match cnt with
      | .num ⟨q, false⟩ =>
          if q.den = 1 then do
            let (items, m') ← pop_resolve_n q.num.toNat { m with stack := rest }
            .ok (m', String.intercalate " " (items.map pyStr))
          else .error (.unmodeled "range of a non-integer")
      | _ => .error (.unmodeled "range of a non-integer")

/-- `prn(vm)`: write the items with no trailing line break. -/
def prn_fn (m : Machine) : Except PyErr (Machine × List OutEvent) := do
  let (m', s) ← prn_core m
  .ok (m', [.prn s])

/-- `printop(vm)`: `prn(vm)` then `print()` (a bare line break). -/
def print_fn (m : Machine) : Except PyErr (Machine × List OutEvent) := do
  let (m', s) ← prn_core m
  .ok (m', [.prn s, .prn "\n"])

/-- `execute(vm, op)`: the `operations` dispatch dict of `operation.py`.
The dict has **no entry for `Op.LETSTR`**, so `operations[op]` raises
`KeyError(<Op.LETSTR: 9>)` for it. -/
def execute (m : Machine) (o : Op) : Except PyErr (Machine × List OutEvent) :=
  match o with
  | .ADD => binop_fn py_add m
  | .SUB => binop_fn py_sub m
  | .MUL => binop_fn py_mul m
  | .DIV => binop_fn py_div m
  | .POW => binop_fn py_pow m
  | .NEG => neg_fn m
  | .LETNUM => letnum_fn m
  | .END => endop_fn m
  | .GOTO => goto_fn m
  | .PRN => prn_fn m
  | .PRINT => print_fn m
  | .LETSTR => .error (.keyErr "<Op.LETSTR: 9>")

/-! ## The run loop (`Machine.run`) -/

/-- One iteration of `for element in line.compiled`: a non-op element is
pushed and the stack dumped (`print(self.stack)`); an op element is
executed, then the opcode and the stack are dumped. -/
def exec_element (m : Machine) (element : Elem) :
    Except PyErr (Machine × List OutEvent) :=
  match element with
  | .val v =>
      let m' := { m with stack := v :: m.stack }
      .ok (m', [.dbgStack m'.stack])
  | .op o => do
      let (m', evs) ← execute m o
      .ok (m', evs ++ [.dbgOp o, .dbgStack m'.stack])

/-- The whole `for element in line.compiled` loop, accumulating the
output written so far (which survives an exception, as stdout does). -/
def exec_elems (m : Machine) : List Elem → List OutEvent × Except PyErr Machine
  | [] => ([], .ok m)
  | e :: rest =>
      match exec_element m e with
      | .error err => ([], .error err)
      | .ok (m', evs) =>
          let (evs', r) := exec_elems m' rest
          (evs ++ evs', r)

/-- The `while self.pidx < len(self.program) and not self.halt` loop of
`Machine.run`: execute the current line's elements, then advance `pidx`
only if the line did not itself change it (the GOTO check). -/
def run_loop : Nat → Machine → List OutEvent × Except PyErr Machine
  | 0, _ => ([], .error (.unmodeled "fuel"))
  | fuel + 1, m =>
      if m.pidx < m.program.length && !m.halt then
        let cur_pidx := m.pidx
        let line := m.program.getD m.pidx ⟨0, "", []⟩
        match exec_elems m line.compiled with
        | (evs, .error err) => (evs, .error err)
        | (evs, .ok m') =>
            let m'' := if cur_pidx = m'.pidx
              then { m' with pidx := m'.pidx + 1 } else m'
            let (evs', r) := run_loop fuel m''
            (evs ++ evs', r)
      else ([], .ok m)

/-- `Machine.run()`: reset `pidx` and `halt`, run the loop, and (on a
normal exit only — an exception propagates first) dump the variable
mapping and the final stack. -/
def run (fuel : Nat) (m : Machine) : List OutEvent × Except PyErr Machine :=
  match run_loop fuel { m with pidx := 0, halt := false } with
  | (evs, .ok m') => (evs ++ [.dbgVars m'.vars, .dbgStack m'.stack], .ok m')
  | (evs, .error e) => (evs, .error e)

/-! ## Driving the interpreter

A front end (out of scope for the source) feeds lines to `add_line` and
then calls `run`; these helpers package that for concrete programs.  The
fixed fuel is ample for every concrete program considered here. -/

/-- Plenty of fuel for the small concrete programs in this file. -/
def defaultFuel : Nat := 1000

/-- Feed the given source lines to `add_line` in order, starting from a
fresh machine. -/
def load_program (texts : List String) : Except PyErr Machine :=
  texts.foldlM (fun m t => add_line defaultFuel m t) ({} : Machine)

/-- Load the lines and `run()`: the produced stdout trace and the result. -/
def run_program (texts : List String) :
    List OutEvent × Except PyErr Machine :=
  match load_program texts with
  | .ok m => run defaultFuel m
  | .error e => ([], .error e)

/-- The final variable mapping of a successful run of the given lines. -/
def run_vars (texts : List String) : Except PyErr (List (String × Value)) :=
  match run_program texts with
  | (_, .ok m) => .ok m.vars
  | (_, .error e) => .error e

/-- The text written to stdout by `PRN`/`PRINT` during the run (the
concatenation of the `prn` events, in order). -/
def run_prn_text (texts : List String) : String :=
  String.join (((run_program texts).1.filter OutEvent.isPrn).map
    (fun e => match e with | .prn s => s | _ => ""))

/-! ## Analysis helpers -/

/-- The program-store invariant of the spec: the stored lines are sorted
by line number, line numbers are unique (both in the program list and in
the `linenos` set), and the `linenos` set tracks exactly the numbers of
the stored lines. -/
def MachineInv (m : Machine) : Prop :=
  List.Sorted (fun a b : Line => a.lineno ≤ b.lineno) m.program ∧
  (m.program.map Line.lineno).Nodup ∧
  m.linenos.Nodup ∧
  (∀ n : Nat, n ∈ m.linenos ↔ n ∈ m.program.map Line.lineno)

instance : IsTotal Line (fun a b => a.lineno ≤ b.lineno) :=
  ⟨fun a b => Nat.le_total a.lineno b.lineno⟩

instance : IsTrans Line (fun a b => a.lineno ≤ b.lineno) :=
  ⟨fun _ _ _ hab hbc => Nat.le_trans hab hbc⟩

/-- The machine `add_line` produces from `m` once compilation has
succeeded with `line`: the delete-if-present step followed by the
insert-and-sort step (used to analyse `add_line` without threading its
monadic plumbing). -/
def after_add (m : Machine) (line : Line) : Machine :=
  let m₁ := if m.linenos.contains line.lineno
    then { m with
      linenos := m.linenos.erase line.lineno,
      program := m.program.filter (fun l => l.lineno ≠ line.lineno) }
    else m
  { m₁ with
    linenos := setAdd m₁.linenos line.lineno,
    program := pySort (m₁.program ++ [line]) }

/-! # Lemmas -/

theorem dictGet_dictSet_self (d : List (String × Value)) (k : String) (v : Value) :
    dictGet (dictSet d k v) k = some v := by
  induction d with
  | nil => simp [dictSet, dictGet]
  | cons hd tl ih =>
      obtain ⟨k', v'⟩ := hd
      by_cases h : k' = k
      · simp [dictSet, dictGet, h]
      · simp [dictSet, dictGet, h, ih]

theorem dictGet_dictSet_ne (d : List (String × Value)) (k k' : String) (v : Value)
    (h : k ≠ k') : dictGet (dictSet d k v) k' = dictGet d k' := by
  induction d with
  | nil => simp [dictSet, dictGet, h]
  | cons hd tl ih =>
      obtain ⟨k₀, v₀⟩ := hd
      by_cases h₀ : k₀ = k
      · subst h₀
        simp [dictSet, dictGet, h]
      · simp only [dictSet, if_neg h₀, dictGet]
        by_cases h₁ : k₀ = k'
        · simp [h₁]
        · simp [h₁, ih]

theorem except_bind_ok {ε α β : Type} (a : α) (f : α → Except ε β) :
    (Except.ok a : Except ε α) >>= f = f a := rfl

theorem except_pure_bind {ε α β : Type} (a : α) (f : α → Except ε β) :
    (pure a : Except ε α) >>= f = f a := rfl

theorem add_line_eq (fuel : Nat) (m : Machine) (text : String) :
    add_line fuel m text = (process_line fuel text).map (after_add m) := by
  unfold add_line after_add
  cases hp : process_line fuel text with
  | error e => rfl
  | ok line =>
      rw [except_bind_ok]
      by_cases hc : m.linenos.contains line.lineno
      · rw [if_pos hc, delete_line, if_pos hc, except_bind_ok]
        show _ = Except.map _ (Except.ok line)
        rw [Except.map, if_pos hc]
      · rw [if_neg hc, except_pure_bind]
        show _ = Except.map _ (Except.ok line)
        rw [Except.map, if_neg hc]

theorem delete_line_ok {m : Machine} {n : Nat} {m' : Machine}
    (h : delete_line m n = .ok m') :
    m.linenos.contains n = true ∧
    m' = { m with
      linenos := m.linenos.erase n,
      program := m.program.filter (fun l => l.lineno ≠ n) } := by
  by_cases hc : m.linenos.contains n
  · refine ⟨hc, ?_⟩
    rw [delete_line, if_pos hc] at h
    exact (Except.ok.injEq _ _ ▸ h).symm
  · rw [delete_line, if_neg hc] at h
    cases h

theorem mem_setAdd {s : List Nat} {k n : Nat} :
    n ∈ setAdd s k ↔ n ∈ s ∨ n = k := by
  by_cases hk : k ∈ s
  · have hc : s.contains k = true := List.elem_iff.mpr hk
    rw [setAdd, if_pos hc]
    constructor
    · exact Or.inl
    · rintro (h | rfl)
      · exact h
      · exact hk
  · have hc : ¬s.contains k = true := fun h => hk (List.elem_iff.mp h)
    rw [setAdd, if_neg hc]
    simp

theorem nodup_setAdd {s : List Nat} {k : Nat} (h : s.Nodup) :
    (setAdd s k).Nodup := by
  by_cases hk : k ∈ s
  · have hc : s.contains k = true := List.elem_iff.mpr hk
    rw [setAdd, if_pos hc]
    exact h
  · have hc : ¬s.contains k = true := fun hcc => hk (List.elem_iff.mp hcc)
    rw [setAdd, if_neg hc]
    simp [List.nodup_append, h, hk]

theorem pySort_perm (l : List Line) : List.Perm (pySort l) l :=
  List.perm_insertionSort _ l

theorem pySort_sorted (l : List Line) :
    List.Sorted (fun a b : Line => a.lineno ≤ b.lineno) (pySort l) :=
  List.sorted_insertionSort _ l

theorem length_filter_ne_lineno (l : List Line) (n : Nat)
    (hnd : (l.map Line.lineno).Nodup) (hmem : n ∈ l.map Line.lineno) :
    (l.filter (fun x => x.lineno ≠ n)).length + 1 = l.length := by
  induction l with
  | nil => simp at hmem
  | cons a l ih =>
      rw [List.map_cons, List.nodup_cons] at hnd
      by_cases heq : a.lineno = n
      · have hall : l.filter (fun x => x.lineno ≠ n) = l := by
          rw [List.filter_eq_self]
          intro x hx
          have hxn : x.lineno ≠ n := fun hc =>
            hnd.1 (heq ▸ hc ▸ List.mem_map_of_mem Line.lineno hx)
          simp [hxn]
        simp [List.filter_cons, heq, hall]
        intro x hx hc
        exact hnd.1 (heq ▸ hc ▸ List.mem_map_of_mem Line.lineno hx)
      · have hmem' : n ∈ l.map Line.lineno := by
          rcases List.mem_cons.mp hmem with h | h
          · exact absurd h.symm heq
          · exact h
        have hlen := ih hnd.2 hmem'
        have hstep : (List.filter (fun x => decide (x.lineno ≠ n)) (a :: l)).length
            = (List.filter (fun x => decide (x.lineno ≠ n)) l).length + 1 := by
          simp [List.filter_cons, heq]
        simp only [List.length_cons]
        omega

theorem length_filter_lt_of_mem {α : Type} {p : α → Bool} :
    ∀ {l : List α} {a : α}, a ∈ l → p a = false →
      (l.filter p).length < l.length := by
  intro l
  induction l with
  | nil => intro a h; simp at h
  | cons b l ih =>
      intro a hmem hpa
      rcases List.mem_cons.mp hmem with rfl | hmem'
      · simp only [List.filter_cons, hpa, if_false, List.length_cons]
        exact Nat.lt_succ_of_le (List.length_filter_le p l)
      · by_cases hpb : p b
        · simpa [List.filter_cons, hpb] using Nat.succ_lt_succ (ih hmem' hpa)
        · simp only [List.filter_cons, hpb, if_false, List.length_cons]
          exact Nat.lt_succ_of_lt (ih hmem' hpa)

theorem exec_element_dbgStack {m : Machine} {e : Elem} {m' : Machine}
    {evs : List OutEvent} (h : exec_element m e = .ok (m', evs)) :
    ∃ s, OutEvent.dbgStack s ∈ evs := by
  cases e with
  | val v =>
      simp only [exec_element] at h
      cases h
      exact ⟨v :: m.stack, by simp⟩
  | op o =>
      simp only [exec_element] at h
      cases hex : execute m o with
      | error err => rw [hex] at h; cases h
      | ok p =>
          obtain ⟨m₂, evs₂⟩ := p
          rw [hex, except_bind_ok] at h
          cases h
          exact ⟨m₂.stack, by simp⟩

theorem exec_elems_dbgStack :
    ∀ (es : List Elem) (m : Machine) (evs : List OutEvent)
      (r : Except PyErr Machine),
      exec_elems m es = (evs, r) →
      evs = [] ∨ ∃ s, OutEvent.dbgStack s ∈ evs := by
  intro es
  induction es with
  | nil =>
      intro m evs r h
      rw [exec_elems] at h
      cases h
      exact Or.inl rfl
  | cons e rest ih =>
      intro m evs r h
      rw [exec_elems] at h
      cases hee : exec_element m e with
      | error err =>
          rw [hee] at h
          cases h
          exact Or.inl rfl
      | ok p =>
          obtain ⟨m₁, evs₁⟩ := p
          rw [hee] at h
          dsimp only at h
          cases hrest : exec_elems m₁ rest with
          | mk evs₂ r₂ =>
              rw [hrest] at h
              dsimp only at h
              cases h
              right
              obtain ⟨s, hs⟩ := exec_element_dbgStack hee
              exact ⟨s, List.mem_append_left _ hs⟩

theorem run_loop_dbgStack :
    ∀ (fuel : Nat) (m : Machine) (evs : List OutEvent)
      (r : Except PyErr Machine),
      run_loop fuel m = (evs, r) →
      evs = [] ∨ ∃ s, OutEvent.dbgStack s ∈ evs := by
  intro fuel
  induction fuel with
  | zero =>
      intro m evs r h
      rw [run_loop] at h
      cases h
      exact Or.inl rfl
  | succ fuel ih =>
      intro m evs r h
      rw [run_loop] at h
      by_cases hcond : (m.pidx < m.program.length && !m.halt) = true
      · rw [if_pos hcond] at h
        dsimp only at h
        cases hee : exec_elems m (m.program.getD m.pidx ⟨0, "", []⟩).compiled with
        | mk evsL rL =>
            cases rL with
            | error err =>
                rw [hee] at h
                dsimp only at h
                cases h
                exact exec_elems_dbgStack _ _ _ _ hee
            | ok m₁ =>
                rw [hee] at h
                dsimp only at h
                cases hrl : run_loop fuel
                    (if m.pidx = m₁.pidx then { m₁ with pidx := m₁.pidx + 1 }
                      else m₁) with
                | mk evsR rR =>
                    rw [hrl] at h
                    dsimp only at h
                    cases h
                    rcases exec_elems_dbgStack _ _ _ _ hee with hnil | ⟨s, hs⟩
                    · subst hnil
                      rcases ih _ _ _ hrl with hnil2 | ⟨s, hs⟩
                      · subst hnil2
                        exact Or.inl rfl
                      · exact Or.inr ⟨s, by simpa using hs⟩
                    · exact Or.inr ⟨s, List.mem_append_left _ hs⟩
      · rw [if_neg hcond] at h
        cases h
        exact Or.inl rfl

/-! # Claims -/

set_option maxHeartbeats 2000000 in
/-- Claim C1: the claim states that every `LET <numvar> = <expr>` whose
expression conforms to the section 4.2 grammar is compiled by `add_line`
and, after `run()`, binds the variable to the expression's value under
standard precedence.  The precedence machinery is right where it is
reachable — `10 LET A = 1 + 2 * 3` leaves `A = 7` and
`10 LET F = 2 ^ 3 * 4` leaves `F = 32` — but the universal claim fails:
a grammar-conforming expression containing a **binary `-`** (or `/`)
makes `add_line` raise `GBasicSyntaxError("Characters '+' expected")`,
because the loop in `scan_expression` always calls `scan_add` first and
its `except TypeError` clause cannot catch the `GBasicSyntaxError` that
`scan_chars` raises; the repository's own test
(`test_arithmetic`, `test_scan_expression`) asserts that `1 - 2`
compiles, so this is a code bug. -/
theorem let_precedence_holds_but_binary_minus_fails_to_compile :
    run_vars ["10 LET A = 1 + 2 * 3"] = .ok [("A", Value.intv 7)] ∧
    run_vars ["10 LET F = 2 ^ 3 * 4"] = .ok [("F", Value.intv 32)] ∧
    add_line defaultFuel {} "10 LET A = 5 - 3" =
      .error (.syn 12 "Characters \x27+\x27 expected") := by
  with_unfolding_all decide

set_option maxHeartbeats 2000000 in
/-- Claim C2: the claim states that `scan_print` emits the items in
reverse item order followed by the item count, and that execution prints
them in source order (`PRINT "X", A` with `A = 1` printing `X 1`).  The
code does the opposite: the items are emitted in **source** order (first
item's elements first), so the stack-based executor, which pops the
count and then pops the items top-of-stack first, prints them
**reversed** — the program `10 LET A = 1` / `20 PRINT "X", A` writes
`1 X` plus a line break (and `1 X` without one when the statement ends
in `;`).  The repository's own tests (`test_scan_print`, `test_print`)
assert the claimed order, so this is a code bug. -/
theorem print_items_emitted_in_source_order_and_printed_reversed :
    scan_line defaultFuel "PRINT \x22X\x22, A".data 0 =
      .ok ([Elem.val (.str "X"), Elem.val (.numvar "A"),
            Elem.val (Value.intv 2), Elem.op Op.PRINT], 12) ∧
    run_prn_text ["10 LET A = 1", "20 PRINT \x22X\x22, A"] = "1 X\n" ∧
    run_prn_text ["10 LET A = 1", "20 PRINT \x22X\x22, A;"] = "1 X" := by
  with_unfolding_all decide

set_option maxHeartbeats 2000000 in
/-- Claim C3: the claim states that executing a compiled
`LET <strvar> = <string>` line (ending in the `LETSTR` opcode) binds the
variable's name to the string in the variable mapping.  The scanner does
emit `[<strvar ref>, <string>, LETSTR]`, but the `operations` dispatch
dict in `operation.py` has **no entry for `Op.LETSTR`**, so
`execute(vm, Op.LETSTR)` raises `KeyError(<Op.LETSTR: 9>)` for every
machine state and running `10 LET A$ = "HELLO"` aborts with that error
instead of binding `A$`.  The `Op` enum, the scanner and the spec all
treat string assignment as supported, so this is a code bug. -/
theorem letstr_opcode_has_no_handler :
    (∀ m : Machine, execute m Op.LETSTR = .error (.keyErr "<Op.LETSTR: 9>")) ∧
    scan_line defaultFuel "LET A$ = \x22HELLO\x22".data 0 =
      .ok ([Elem.val (.strvar "A$"), Elem.val (.str "HELLO"),
            Elem.op Op.LETSTR], 16) ∧
    run_vars ["10 LET A$ = \x22HELLO\x22"] = .error (.keyErr "<Op.LETSTR: 9>") := by
  refine ⟨fun m => rfl, ?_, ?_⟩ <;> with_unfolding_all decide

set_option maxHeartbeats 2000000 in
/-- Claim C4: the claim states that `a / b` compiles for numeric
literals and that the `DIV` opcode true-divides, with
`LET D = 6 / 2` giving `3` and `LET E = 1 / 2` giving `0.5`.  The `DIV`
opcode itself does true-divide (popping `2` then `6` pushes the
float-valued `3`; popping `2` then `1` pushes `0.5`), but neither line
compiles: the loop in `scan_term` always calls `scan_mul` first and its
`except TypeError` clause cannot catch the `GBasicSyntaxError` that
`scan_chars("*")` raises on a `/`, so `add_line` fails with
`"Characters '*' expected"`.  The repository's own test
(`test_arithmetic`) asserts both divisions work, so this is a code
bug. -/
theorem division_fails_to_compile_though_div_opcode_divides_truly :
    add_line defaultFuel {} "10 LET D = 6 / 2" =
      .error (.syn 12 "Characters \x27*\x27 expected") ∧
    add_line defaultFuel {} "10 LET E = 1 / 2" =
      .error (.syn 12 "Characters \x27*\x27 expected") ∧
    execute { stack := [Value.intv 2, Value.intv 6] } Op.DIV =
      .ok ({ stack := [.num ⟨3, true⟩] }, []) ∧
    execute { stack := [Value.intv 2, Value.intv 1] } Op.DIV =
      .ok ({ stack := [.num ⟨1 / 2, true⟩] }, []) := by
  with_unfolding_all decide

/-- Claim C8: a compilation error aborts `add_line` before any state is
touched.  In the embedding (which returns the machine in `Except`), this
is the statement that `add_line` propagates the `_process_line` error
unchanged: no machine is produced, so the caller keeps its store exactly
as it was — `add_line` performs all of its scanning before its first
mutation, matching the in-place Python code where the exception escapes
before `linenos`/`program` are assigned. -/
theorem add_line_error_leaves_program_store_unchanged :
    ∀ (fuel : Nat) (m : Machine) (text : String) (e : PyErr),
      process_line fuel text = .error e → add_line fuel m text = .error e := by
  intro fuel m text e h
  rw [add_line_eq, h]
  rfl

/-- Witness for C8 at a concrete input: `10 FLUB` fails keyword
scanning, and `add_line` on any machine returns exactly that error. -/
theorem add_line_error_leaves_program_store_unchanged_witness :
    add_line defaultFuel
      { program := [⟨10, "END", [Elem.op Op.END]⟩], linenos := [10] }
      "10 FLUB" = .error (.syn 3 "Keyword expected") :=
  add_line_error_leaves_program_store_unchanged defaultFuel
    { program := [⟨10, "END", [Elem.op Op.END]⟩], linenos := [10] }
    "10 FLUB" (.syn 3 "Keyword expected") (by with_unfolding_all decide)

/-- Claim C9: `resolve` substitutes the variable mapping's value only
for elements tagged `Element.numvar`; an `Element.strvar` element is
returned unchanged without consulting the mapping (its result does not
depend on the machine), and `pop_and_resolve` therefore hands consumers
the raw tagged reference.  Concretely, running `10 PRINT A$` on a
machine whose mapping binds `A$` to `"HELLO"` prints the tuple repr of
the reference, not `HELLO`. -/
theorem resolve_substitutes_only_numeric_variable_references :
    (∀ (m : Machine) (name : String),
      resolve m (.strvar name) = .ok (.strvar name)) ∧
    (∀ (m m' : Machine) (name : String),
      resolve m (.strvar name) = resolve m' (.strvar name)) ∧
    (∀ (m : Machine) (name : String) (v : Value),
      dictGet m.vars name = some v → resolve m (.numvar name) = .ok v) ∧
    (∀ (m : Machine) (name : String) (rest : List Value),
      m.stack = .strvar name :: rest →
      pop_and_resolve m = .ok (.strvar name, { m with stack := rest })) ∧
    ((run defaultFuel
        { program := [⟨10, "PRINT A$",
            [Elem.val (.strvar "A$"), Elem.val (Value.intv 1),
             Elem.op Op.PRINT]⟩],
          linenos := [10],
          vars := [("A$", Value.str "HELLO")] }).1.filter OutEvent.isPrn =
      [.prn "(<Element.strvar: 4>, \x27A$\x27)", .prn "\n"]) := by
  refine ⟨fun m name => rfl, fun m m' name => rfl, ?_, ?_, ?_⟩
  · intro m name v h
    simp [resolve, h]
  · intro m name rest h
    rw [pop_and_resolve, h]
    rfl
  · with_unfolding_all decide

/-- Witness for C9 at concrete inputs: a machine with `A` bound to `1`
resolves the numeric reference to `1`, and a stack whose top is a
string-variable reference pops it unresolved. -/
theorem resolve_substitutes_only_numeric_variable_references_witness :
    resolve { vars := [("A", Value.intv 1)] } (.numvar "A") =
      .ok (Value.intv 1) ∧
    pop_and_resolve { stack := [Value.strvar "B$"], vars := [("B$", Value.str "S")] } =
      .ok (.strvar "B$",
        { stack := [], vars := [("B$", Value.str "S")] }) :=
  ⟨resolve_substitutes_only_numeric_variable_references.2.2.1
      { vars := [("A", Value.intv 1)] } "A" (Value.intv 1)
      (by with_unfolding_all decide),
   resolve_substitutes_only_numeric_variable_references.2.2.2.1
      { stack := [Value.strvar "B$"], vars := [("B$", Value.str "S")] } "B$" []
      (by with_unfolding_all decide)⟩

set_option maxHeartbeats 2000000 in
/-- Claim C5: during `run()`, a `GOTO` whose target line number is not
in the program raises `GBasicRuntimeError` whose (single, positional)
argument is the message naming that line number, and a `GOTO` whose
target is present repositions the program counter to the target line's
index (after which the run loop does not advance it, so the lines
between the GOTO and the target never execute).  Concretely,
`10 GOTO 25` aborts the run with the message naming `25`, and in
`20 GOTO 40` / `30 LET A = 2` / `40 LET B = 3` the skipped line 30
leaves no trace: the final mapping is exactly `{B: 3}`. -/
theorem goto_absent_line_errors_and_present_line_repositions :
    (∀ (m : Machine) (n : ℤ),
      m.linenos.any (fun k => value_eq_lineno (Value.intv n) k) = false →
      machine_goto m (Value.intv n) =
        .error (.runtimeErr ("Cannot GOTO line number " ++ toString n ++
          ": line number does not exist"))) ∧
    (∀ (m : Machine) (n : ℤ) (i : Nat),
      m.linenos.any (fun k => value_eq_lineno (Value.intv n) k) = true →
      m.program.findIdx? (fun l => value_eq_lineno (Value.intv n) l.lineno) =
        some i →
      machine_goto m (Value.intv n) = .ok { m with pidx := i }) ∧
    run_vars ["10 GOTO 25"] =
      .error (.runtimeErr
        "Cannot GOTO line number 25: line number does not exist") ∧
    run_vars ["20 GOTO 40", "30 LET A = 2", "40 LET B = 3"] =
      .ok [("B", Value.intv 3)] := by
  refine ⟨?_, ?_, ?_, ?_⟩
  · intro m n h
    rw [machine_goto, if_neg (by simp [h])]
    have hstr : pyStr (Value.intv n) = toString n := by
      simp [pyStr, Value.intv]
    rw [hstr]
  · intro m n i hmem hidx
    rw [machine_goto, if_pos (by simp [hmem]), hidx]
  · with_unfolding_all decide
  · with_unfolding_all decide

/-- Witness for C5 at concrete inputs: a machine without line 25 raises
the runtime error naming 25; a machine whose sorted program holds lines
10 and 40 repositions the counter to index 1 on `GOTO 40`. -/
theorem goto_absent_line_errors_and_present_line_repositions_witness :
    machine_goto { linenos := [10] } (Value.intv 25) =
      .error (.runtimeErr
        "Cannot GOTO line number 25: line number does not exist") ∧
    machine_goto
      { program := [⟨10, "END", [Elem.op Op.END]⟩, ⟨40, "END", [Elem.op Op.END]⟩],
        linenos := [10, 40] } (Value.intv 40) =
      .ok { program := [⟨10, "END", [Elem.op Op.END]⟩, ⟨40, "END", [Elem.op Op.END]⟩],
            linenos := [10, 40], pidx := 1 } :=
  ⟨goto_absent_line_errors_and_present_line_repositions.1
      { linenos := [10] } 25 (by with_unfolding_all decide),
   goto_absent_line_errors_and_present_line_repositions.2.1
      { program := [⟨10, "END", [Elem.op Op.END]⟩, ⟨40, "END", [Elem.op Op.END]⟩],
        linenos := [10, 40] } 40 1
      (by with_unfolding_all decide) (by with_unfolding_all decide)⟩

set_option maxHeartbeats 2000000 in
/-- Claim C6: the `END` opcode sets the halt flag, and the run loop
executes nothing once the halt flag is set, so every line after a
reached `END` is skipped; for `10 LET A = 1` / `20 END` /
`30 LET B = 2` the final mapping is exactly `{A: 1}` — in particular
`A = 1` and `B` is unbound. -/
theorem end_sets_halt_and_stops_execution :
    (∀ m : Machine, execute m Op.END = .ok ({ m with halt := true }, [])) ∧
    (∀ (fuel : Nat) (m : Machine), m.halt = true →
      run_loop (fuel + 1) m = ([], .ok m)) ∧
    run_vars ["10 LET A = 1", "20 END", "30 LET B = 2"] =
      .ok [("A", Value.intv 1)] ∧
    (run_vars ["10 LET A = 1", "20 END", "30 LET B = 2"]).map
      (fun vs => dictGet vs "B") = .ok none := by
  refine ⟨fun m => rfl, ?_, ?_, ?_⟩
  · intro fuel m h
    rw [run_loop, if_neg (by simp [h])]
  · with_unfolding_all decide
  · with_unfolding_all decide

/-- Witness for C6 at a concrete input: a halted machine with one
pending line executes nothing. -/
theorem end_sets_halt_and_stops_execution_witness :
    run_loop 5 { program := [⟨10, "END", [Elem.op Op.END]⟩], linenos := [10],
                 halt := true } =
      ([], .ok { program := [⟨10, "END", [Elem.op Op.END]⟩], linenos := [10],
                 halt := true }) :=
  end_sets_halt_and_stops_execution.2.1 4
    { program := [⟨10, "END", [Elem.op Op.END]⟩], linenos := [10],
      halt := true } rfl

theorem run_ok_shape {fuel : Nat} {m : Machine} {evs : List OutEvent}
    {m' : Machine} (h : run fuel m = (evs, .ok m')) :
    ∃ evs₀, evs = evs₀ ++ [OutEvent.dbgVars m'.vars, OutEvent.dbgStack m'.stack] := by
  rw [run] at h
  cases hrl : run_loop fuel { m with pidx := 0, halt := false } with
  | mk evs₁ r₁ =>
      rw [hrl] at h
      cases r₁ with
      | error e => simp at h
      | ok mf =>
          dsimp only at h
          rw [Prod.mk.injEq] at h
          obtain ⟨h1, h2⟩ := h
          cases h2
          exact ⟨evs₁, h1.symm⟩

theorem run_error_shape {fuel : Nat} {m : Machine} {evs : List OutEvent}
    {err : PyErr} (h : run fuel m = (evs, .error err)) :
    run_loop fuel { m with pidx := 0, halt := false } = (evs, .error err) := by
  rw [run] at h
  cases hrl : run_loop fuel { m with pidx := 0, halt := false } with
  | mk evs₁ r₁ =>
      rw [hrl] at h
      cases r₁ with
      | error e =>
          dsimp only at h
          rw [Prod.mk.injEq] at h
          obtain ⟨h1, h2⟩ := h
          cases h2
          rw [h1]
      | ok mf => simp at h

set_option maxHeartbeats 2000000 in
/-- Claim C10: during `run()` every executed element writes the current
stack's representation to stdout (and, for an op element, also the
opcode); a normally finishing run additionally dumps the variable
mapping and the final stack after the loop; consequently the text
written to stdout during a run is strictly more than the `PRINT`/`PRN`
output — both for every normally finishing run and for every aborted
run that executed at least one element (equivalently, whose trace is
nonempty). -/
theorem run_writes_debug_dumps_beyond_program_output :
    (∀ (m : Machine) (e : Elem) (m' : Machine) (evs : List OutEvent),
      exec_element m e = .ok (m', evs) →
      (∃ s, OutEvent.dbgStack s ∈ evs) ∧
      (∀ o : Op, e = Elem.op o → OutEvent.dbgOp o ∈ evs)) ∧
    (∀ (fuel : Nat) (m : Machine) (evs : List OutEvent) (m' : Machine),
      run fuel m = (evs, .ok m') →
      ∃ evs₀,
        evs = evs₀ ++ [OutEvent.dbgVars m'.vars, OutEvent.dbgStack m'.stack]) ∧
    (∀ (fuel : Nat) (m : Machine) (evs : List OutEvent) (m' : Machine),
      run fuel m = (evs, .ok m') →
      (evs.filter OutEvent.isPrn).length < evs.length) ∧
    (∀ (fuel : Nat) (m : Machine) (evs : List OutEvent) (err : PyErr),
      run fuel m = (evs, .error err) → evs ≠ [] →
      (evs.filter OutEvent.isPrn).length < evs.length) := by
  refine ⟨?_, ?_, ?_, ?_⟩
  · intro m e m' evs h
    refine ⟨exec_element_dbgStack h, ?_⟩
    intro o ho
    subst ho
    simp only [exec_element] at h
    cases hex : execute m o with
    | error err => rw [hex] at h; cases h
    | ok p =>
        obtain ⟨m₂, evs₂⟩ := p
        rw [hex, except_bind_ok] at h
        cases h
        simp
  · intro fuel m evs m' h
    exact run_ok_shape h
  · intro fuel m evs m' h
    obtain ⟨evs₀, rfl⟩ := run_ok_shape h
    rw [List.filter_append, List.length_append, List.length_append]
    have h1 : (evs₀.filter OutEvent.isPrn).length ≤ evs₀.length :=
      List.length_filter_le _ _
    have h2 : (([OutEvent.dbgVars m'.vars,
        OutEvent.dbgStack m'.stack]).filter OutEvent.isPrn).length = 0 := by
      simp [OutEvent.isPrn]
    have h3 : ([OutEvent.dbgVars m'.vars,
        OutEvent.dbgStack m'.stack]).length = 2 := rfl
    omega
  · intro fuel m evs err h hne
    have hrl := run_error_shape h
    rcases run_loop_dbgStack _ _ _ _ hrl with rfl | ⟨s, hs⟩
    · exact absurd rfl hne
    · exact length_filter_lt_of_mem hs rfl

/-- Witness for C10 at concrete inputs: the op element of a compiled
`END` line dumps the opcode and the stack; the one-line program
`10 END` finishes normally, its trace ending in the two final dumps and
containing no program output at all; the program `10 GOTO 25` aborts
with a nonempty trace, which still holds more than its (empty) program
output. -/
theorem run_writes_debug_dumps_beyond_program_output_witness :
    ((∃ s, OutEvent.dbgStack s ∈
        [OutEvent.dbgOp Op.END, OutEvent.dbgStack ([] : List Value)]) ∧
      (∀ o : Op, Elem.op Op.END = Elem.op o →
        OutEvent.dbgOp o ∈
          [OutEvent.dbgOp Op.END, OutEvent.dbgStack ([] : List Value)])) ∧
    (∃ evs₀,
      (run defaultFuel
        { program := [⟨10, "END", [Elem.op Op.END]⟩], linenos := [10] }).1 =
        evs₀ ++ [OutEvent.dbgVars [], OutEvent.dbgStack []]) ∧
    (((run defaultFuel
        { program := [⟨10, "END", [Elem.op Op.END]⟩],
          linenos := [10] }).1.filter OutEvent.isPrn).length <
      (run defaultFuel
        { program := [⟨10, "END", [Elem.op Op.END]⟩], linenos := [10] }).1.length) ∧
    (((run defaultFuel
        { program := [⟨10, "GOTO 25", [Elem.val (Value.intv 25), Elem.op Op.GOTO]⟩],
          linenos := [10] }).1.filter OutEvent.isPrn).length <
      (run defaultFuel
        { program := [⟨10, "GOTO 25", [Elem.val (Value.intv 25), Elem.op Op.GOTO]⟩],
          linenos := [10] }).1.length) := by
  have hend : exec_element
      { program := [⟨10, "END", [Elem.op Op.END]⟩], linenos := [10] }
      (Elem.op Op.END) =
      .ok ({ program := [⟨10, "END", [Elem.op Op.END]⟩], linenos := [10],
             halt := true },
        [OutEvent.dbgOp Op.END, OutEvent.dbgStack ([] : List Value)]) := by
    with_unfolding_all decide
  have hrun : run defaultFuel
      { program := [⟨10, "END", [Elem.op Op.END]⟩], linenos := [10] } =
      ([OutEvent.dbgOp Op.END, OutEvent.dbgStack [], OutEvent.dbgVars [],
        OutEvent.dbgStack []],
       .ok { program := [⟨10, "END", [Elem.op Op.END]⟩], linenos := [10],
             pidx := 1, halt := true }) := by
    with_unfolding_all decide
  have hrunErr : run defaultFuel
      { program := [⟨10, "GOTO 25", [Elem.val (Value.intv 25), Elem.op Op.GOTO]⟩],
        linenos := [10] } =
      ([OutEvent.dbgStack [Value.intv 25]],
       .error (.runtimeErr
         "Cannot GOTO line number 25: line number does not exist")) := by
    with_unfolding_all decide
  refine ⟨run_writes_debug_dumps_beyond_program_output.1 _ _ _ _ hend,
    run_writes_debug_dumps_beyond_program_output.2.1 _ _ _ _ (by rw [hrun]),
    run_writes_debug_dumps_beyond_program_output.2.2.1 _ _ _ _ (by rw [hrun]),
    run_writes_debug_dumps_beyond_program_output.2.2.2 _ _ _ _ (by rw [hrunErr])
      (by simp [hrunErr])⟩

theorem mem_map_filter_ne {l : List Line} {k n : Nat} :
    n ∈ (l.filter (fun x => x.lineno ≠ k)).map Line.lineno ↔
      n ∈ l.map Line.lineno ∧ n ≠ k := by
  simp only [List.mem_map, List.mem_filter, decide_eq_true_eq]
  constructor
  · rintro ⟨x, ⟨hx, hne⟩, rfl⟩
    exact ⟨⟨x, hx, rfl⟩, hne⟩
  · rintro ⟨⟨x, hx, rfl⟩, hne⟩
    exact ⟨x, ⟨hx, hne⟩, rfl⟩

theorem nodup_map_filter_ne {l : List Line} {k : Nat}
    (h : (l.map Line.lineno).Nodup) :
    ((l.filter (fun x => x.lineno ≠ k)).map Line.lineno).Nodup :=
  List.Nodup.sublist ((l.filter_sublist).map Line.lineno) h

theorem not_mem_map_filter_self {l : List Line} {k : Nat} :
    k ∉ (l.filter (fun x => x.lineno ≠ k)).map Line.lineno := by
  rw [mem_map_filter_ne]
  rintro ⟨-, hk⟩
  exact hk rfl

theorem after_add_inv {m : Machine} {line : Line} (hInv : MachineInv m) :
    MachineInv (after_add m line) := by
  obtain ⟨hs, hnd, hndS, hag⟩ := hInv
  unfold after_add MachineInv
  by_cases hk : line.lineno ∈ m.linenos
  · have hc : m.linenos.contains line.lineno = true := List.elem_iff.mpr hk
    rw [if_pos hc]
    dsimp only
    refine ⟨pySort_sorted _, ?_, nodup_setAdd (hndS.erase _), ?_⟩
    · rw [((pySort_perm _).map Line.lineno).nodup_iff, List.map_append,
        List.nodup_append]
      refine ⟨nodup_map_filter_ne hnd, List.nodup_singleton _, ?_⟩
      intro a ha hb
      rw [List.map_singleton, List.mem_singleton] at hb
      subst hb
      exact not_mem_map_filter_self ha
    · intro n
      rw [mem_setAdd, ((pySort_perm _).map Line.lineno).mem_iff,
        List.map_append, List.mem_append, List.map_singleton,
        List.mem_singleton, hndS.mem_erase_iff, mem_map_filter_ne, hag n]
      tauto
  · have hc : ¬m.linenos.contains line.lineno = true :=
      fun hcc => hk (List.elem_iff.mp hcc)
    have hknotmap : line.lineno ∉ m.program.map Line.lineno :=
      fun hmm => hk ((hag _).mpr hmm)
    rw [if_neg hc]
    dsimp only
    refine ⟨pySort_sorted _, ?_, nodup_setAdd hndS, ?_⟩
    · rw [((pySort_perm _).map Line.lineno).nodup_iff, List.map_append,
        List.nodup_append]
      refine ⟨hnd, List.nodup_singleton _, ?_⟩
      intro a ha hb
      rw [List.map_singleton, List.mem_singleton] at hb
      subst hb
      exact hknotmap ha
    · intro n
      rw [mem_setAdd, ((pySort_perm _).map Line.lineno).mem_iff,
        List.map_append, List.mem_append, List.map_singleton,
        List.mem_singleton, hag n]

theorem add_line_ok_after {fuel : Nat} {m : Machine} {text : String}
    {m' : Machine} (h : add_line fuel m text = .ok m') :
    ∃ line, process_line fuel text = .ok line ∧ m' = after_add m line := by
  rw [add_line_eq] at h
  cases hp : process_line fuel text with
  | error e => rw [hp] at h; cases h
  | ok line =>
      rw [hp] at h
      refine ⟨line, rfl, ?_⟩
      injection h with h
      exact h.symm

set_option maxHeartbeats 1000000 in
/-- Claim C7: after every (successful) `add_line` and `delete_line`
call the program's line numbers are unique and the stored line list is
sorted by line number — the invariant holds of the fresh machine and is
preserved by both operations — and `add_line` with a line number
already present replaces the earlier compiled line for that number
without increasing the program's line count. -/
theorem program_store_sorted_unique_and_replacement :
    MachineInv {} ∧
    (∀ (fuel : Nat) (m : Machine) (text : String) (m' : Machine),
      MachineInv m → add_line fuel m text = .ok m' → MachineInv m') ∧
    (∀ (m : Machine) (n : Nat) (m' : Machine),
      MachineInv m → delete_line m n = .ok m' → MachineInv m') ∧
    (∀ (fuel : Nat) (m : Machine) (text : String) (line : Line) (m' : Machine),
      MachineInv m → process_line fuel text = .ok line →
      line.lineno ∈ m.linenos → add_line fuel m text = .ok m' →
      m'.program.length = m.program.length ∧ line ∈ m'.program ∧
      ∀ l ∈ m'.program, l.lineno = line.lineno → l = line) := by
  refine ⟨?_, ?_, ?_, ?_⟩
  · refine ⟨List.sorted_nil, List.nodup_nil, List.nodup_nil, ?_⟩
    intro n
    simp [Machine.program, Machine.linenos]
  · intro fuel m text m' hInv h
    obtain ⟨line, hp, rfl⟩ := add_line_ok_after h
    exact after_add_inv hInv
  · intro m n m' hInv h
    obtain ⟨hc, rfl⟩ := delete_line_ok h
    obtain ⟨hs, hnd, hndS, hag⟩ := hInv
    refine ⟨hs.filter _, nodup_map_filter_ne hnd, hndS.erase _, ?_⟩
    intro n'
    dsimp only
    rw [hndS.mem_erase_iff, mem_map_filter_ne, hag n']
    tauto
  · intro fuel m text line m' hInv hp hmem hadd
    obtain ⟨line', hp', heq⟩ := add_line_ok_after hadd
    rw [hp] at hp'
    injection hp' with hline
    subst hline
    subst heq
    obtain ⟨hs, hnd, hndS, hag⟩ := hInv
    have hc : m.linenos.contains line.lineno = true := List.elem_iff.mpr hmem
    have hmm : line.lineno ∈ m.program.map Line.lineno := (hag _).mp hmem
    unfold after_add
    rw [if_pos hc]
    dsimp only
    refine ⟨?_, ?_, ?_⟩
    · rw [(pySort_perm _).length_eq, List.length_append]
      have hlen := length_filter_ne_lineno m.program line.lineno hnd hmm
      simpa using hlen
    · exact (pySort_perm _).mem_iff.mpr
        (List.mem_append_right _ (List.mem_singleton_self _))
    · intro l hl hlno
      rcases List.mem_append.mp ((pySort_perm _).mem_iff.mp hl) with hfl | hsl
      · rcases List.mem_filter.mp hfl with ⟨-, hne⟩
        rw [decide_eq_true_eq] at hne
        exact absurd hlno hne
      · exact List.mem_singleton.mp hsl

/-- Witness for C7 at concrete inputs: the invariant holds after adding
`10 END` to a fresh machine, and re-adding line 10 (as `10 LET A = 1`)
replaces the stored line without changing the one-line program's
length. -/
theorem program_store_sorted_unique_and_replacement_witness :
    MachineInv
      { program := [⟨10, "END", [Elem.op Op.END]⟩], linenos := [10] } ∧
    ({ program := [⟨10, "LET A = 1",
          [Elem.val (.numvar "A"), Elem.val (Value.intv 1),
           Elem.op Op.LETNUM]⟩], linenos := [10] } : Machine).program.length =
      ({ program := [⟨10, "END", [Elem.op Op.END]⟩],
         linenos := [10] } : Machine).program.length :=
  ⟨program_store_sorted_unique_and_replacement.2.1 defaultFuel {} "10 END"
      { program := [⟨10, "END", [Elem.op Op.END]⟩], linenos := [10] }
      program_store_sorted_unique_and_replacement.1
      (by with_unfolding_all decide),
   (program_store_sorted_unique_and_replacement.2.2.2 defaultFuel
      { program := [⟨10, "END", [Elem.op Op.END]⟩], linenos := [10] }
      "10 LET A = 1"
      ⟨10, "LET A = 1",
        [Elem.val (.numvar "A"), Elem.val (Value.intv 1), Elem.op Op.LETNUM]⟩
      { program := [⟨10, "LET A = 1",
          [Elem.val (.numvar "A"), Elem.val (Value.intv 1),
           Elem.op Op.LETNUM]⟩], linenos := [10] }
      (program_store_sorted_unique_and_replacement.2.1 defaultFuel {} "10 END"
        { program := [⟨10, "END", [Elem.op Op.END]⟩], linenos := [10] }
        program_store_sorted_unique_and_replacement.1
        (by with_unfolding_all decide))
      (by with_unfolding_all decide)
      (by simp)
      (by with_unfolding_all decide)).1⟩

end GBasic
